import Mathlib

/-!
Verification of the TeleImageBot image-enhancement pipeline
(`bot/image_processor.py`, `utils/file_utils.py`, `config.py`).

The Python code is shallowly embedded: PIL/OpenCV images are modeled at the
level the verified properties are about — channel mode and pixel dimensions —
with every transformation step of the source (convert / resize / crop /
bilateral filter / sharpen / unsharp blend) represented by a function on that
state.  Python float arithmetic on scale ratios is modeled exactly: each
float comparison of ratios is carried out by integer cross-multiplication,
and `int(...)` of a nonnegative product of ratios is the corresponding ℕ
division (each definition's doc comment states the identity used); the
rational `maxScaleQ` names the compared quantity in theorem statements.
Every concrete input evaluated in a witness or counterexample below is
chosen so the float64 computation of the source is exact and agrees with
the exact arithmetic.  Exceptions are modeled with an explicit `PyResult`
sum; an environment `Env` records what the external world (decoders,
encoders, injected faults) does, so one run of the pipeline is a pure
function of its `Env`.
-/

namespace TeleImageBot

/-- `⌊log2 n⌋` for `n ≥ 1` (0 at 0), by structural recursion (the first
argument is fuel, initialized to `n` itself, which bounds the number of
halvings).  Used to model Python's `int(np.log2(x))`: for `x ≥ 1`,
`⌊log2 x⌋ = ⌊log2 ⌊x⌋⌋`. -/
def natLog2Aux : ℕ → ℕ → ℕ
  | 0, _ => 0
  | fuel + 1, n => if n ≤ 1 then 0 else natLog2Aux fuel (n / 2) + 1

def natLog2 (n : ℕ) : ℕ := natLog2Aux n n

/-- Lowercase a string character by character (`str.lower()`). -/
def strLower (s : String) : String := String.mk (s.data.map Char.toLower)

/-- Uppercase a string character by character (`str.upper()`). -/
def strUpper (s : String) : String := String.mk (s.data.map Char.toUpper)

/-- `str.replace(pat, rep)`: replace every non-overlapping occurrence of
`pat`, scanning left to right.  Structural recursion on a fuel initialized
to the string's length (each step consumes at least one character for a
nonempty pattern; an empty pattern leaves the string unchanged here and is
never passed by the pipeline). -/
def strReplaceAux : ℕ → List Char → List Char → List Char → List Char
  | 0, s, _, _ => s
  | fuel + 1, s, pat, rep =>
    match s with
    | [] => []
    | c :: rest =>
      if pat.length ≠ 0 ∧ pat.isPrefixOf s then
        rep ++ strReplaceAux fuel (s.drop pat.length) pat rep
      else c :: strReplaceAux fuel rest pat rep

def strReplace (s pat rep : String) : String :=
  String.mk (strReplaceAux s.data.length s.data pat.data rep.data)

/-! ## Configuration (`config.py`) -/

def HD_SIZE : ℕ × ℕ := (1920, 1080)

def UHD_4K_SIZE : ℕ × ℕ := (3840, 2160)

def TEMP_DIR : String := "/tmp/bot_images"

def SUPPORTED_FORMATS : List String := ["JPEG", "PNG", "WEBP", "BMP", "TIFF"]

def MAX_CONCURRENT_PROCESSES : ℕ := 3

/-! ## Images -/

/-- PIL channel modes referenced by the source. -/
inductive PILMode
  | RGB
  | RGBA
  | L
  | LA
  | P
  | CMYK
  deriving DecidableEq

/-- A PIL image, at the granularity the verified claims are about:
channel mode and pixel dimensions.  Every transformation of the source
is modeled by its effect on this state. -/
structure PILImage where
  mode : PILMode
  width : ℕ
  height : ℕ
  deriving DecidableEq

/-- `img.convert(m)` : changes the channel mode, keeps dimensions. -/
def PILImage.convert (img : PILImage) (m : PILMode) : PILImage :=
  ⟨m, img.width, img.height⟩

/-- `img.resize(target, LANCZOS)` : sets dimensions to the target, keeps mode. -/
def PILImage.resize (img : PILImage) (t : ℕ × ℕ) : PILImage :=
  ⟨img.mode, t.1, t.2⟩

/-- `img.crop((l, u, r, b))` : the cropped region's dimensions. -/
def PILImage.crop (img : PILImage) (l u r b : ℕ) : PILImage :=
  ⟨img.mode, r - l, b - u⟩

/-- `ImageEnhance.Sharpness(img).enhance(factor)` : pixel-level contrast
change, preserves mode and dimensions. -/
def sharpen (img : PILImage) (_factor : ℚ) : PILImage := img

/-- An OpenCV buffer from `cv2.imread` (always 3-channel BGR). -/
structure CvImage where
  width : ℕ
  height : ℕ
  deriving DecidableEq

/-- `cv2.bilateralFilter(img, d, sc, ss)` : preserves shape. -/
def CvImage.bilateral (img : CvImage) (_d _sc _ss : ℕ) : CvImage := img

/-- `cv2.resize(img, size, interpolation=INTER_CUBIC)`. -/
def CvImage.resizeCv (_img : CvImage) (t : ℕ × ℕ) : CvImage :=
  ⟨t.1, t.2⟩

/-- `cv2.filter2D(img, -1, kernel)` : preserves shape. -/
def CvImage.filter2D (img : CvImage) : CvImage := img

/-- `cv2.GaussianBlur(img, (0,0), sigma)` : preserves shape. -/
def CvImage.gaussian (img : CvImage) (_sigma : ℚ) : CvImage := img

/-- `cv2.addWeighted(a, wa, b, wb, 0)` : shape of the first operand
(the call sites always pass same-shaped operands). -/
def cvAddWeighted (a : CvImage) (_wa : ℚ) (_b : CvImage) (_wb : ℚ) : CvImage := a

/-- A cv buffer written with `cv2.imwrite` is a 3-channel (RGB-layout) image. -/
def CvImage.toPIL (img : CvImage) : PILImage :=
  ⟨.RGB, img.width, img.height⟩

/-! ## Exceptions and the run environment -/

/-- Result of a Python `try` body: a value, or a raised exception. -/
inductive PyResult (α : Type) where
  | ok (v : α)
  | exn
  deriving DecidableEq

/-- `try body except: handler` where the handler returns a value. -/
def pyCatch {α : Type} (body : PyResult α) (handler : Unit → α) : α :=
  match body with
  | .ok v => v
  | .exn => handler ()

/-- `try body except: handler` where the handler is itself Python code. -/
def pyCatchR {α : Type} (body : PyResult α) (handler : Unit → PyResult α) : PyResult α :=
  match body with
  | .ok v => .ok v
  | .exn => handler ()

/-- Inject an exception at the start of a try body when the fault flag is set. -/
def raiseIf {α : Type} (b : Bool) (r : PyResult α) : PyResult α :=
  if b then .exn else r

/-- The routines of `image_processor.py` whose `try` blocks can receive an
injected exception (anything in Python can raise: I/O, memory, a filter). -/
inductive Routine
  | hd
  | fourK
  | fourKCompressed
  | optimizeImage
  | convertFormatR
  | customUp
  | simpleRz
  | smartRz
  | maxUp
  | pubHd
  | pubFourK
  | pubFourKCompressed
  | pubOptimize
  | pubConvert
  | pubCustom
  deriving DecidableEq

/-- One run's external world: decoder results, encoder status, fault
injection, and the source file's base name. -/
structure Env where
  pilImage : Option PILImage
  cvImage : Option CvImage
  cvWriteOk : Bool
  exnAt : Routine → Bool
  inputBase : String

/-- `Image.open(input_path)` : raises when the file is undecodable. -/
def Env.openPIL (env : Env) : PyResult PILImage :=
  match env.pilImage with
  | some i => .ok i
  | none => .exn

/-! ## Outputs -/

/-- The save parameters used by the source's `save` / `imwrite` calls. -/
inductive Encoding
  | jpeg (quality : ℕ) (progressiveFlag : Bool)
  | png
  | webp (quality : ℕ)
  | named (fmt : String)
  deriving DecidableEq

/-- A written output file: directory, file name, encoded image, encoding. -/
structure OutFile where
  dir : String
  name : String
  img : PILImage
  enc : Encoding
  deriving DecidableEq

/-- `_get_output_path` : `{base_name}_{suffix}.jpg` in the temp directory. -/
def outName (base sfx : String) : String :=
  base ++ "_" ++ sfx ++ ".jpg"

/-! ## `_simple_resize` -/

def simple_resize_body (env : Env) (target : ℕ × ℕ) (sfx : String) :
    PyResult (Option OutFile) :=
  raiseIf (env.exnAt .simpleRz) <|
  match env.openPIL with
  | .exn => .exn
  | .ok img0 =>
    let img :=
      if img0.mode = .RGBA ∨ img0.mode = .LA ∨ img0.mode = .P then
        img0.convert .RGB
      else img0
    let resized := img.resize target
    let sharpened := sharpen resized (6/5)
    .ok (some ⟨TEMP_DIR, outName env.inputBase sfx, sharpened, .jpeg 95 false⟩)

def simple_resize (env : Env) (target : ℕ × ℕ) (sfx : String) : Option OutFile :=
  pyCatch (simple_resize_body env target sfx) (fun _ => none)

/-! ## `_smart_resize` -/

/-- The center-crop geometry of `_smart_resize`: `none` when the aspect
quotients differ by less than `0.01` (direct resize), otherwise the cropped
axis's offsets from its two opposite edges.  Wider sources crop x
(`new_width = int(original_height * target_aspect)`,
`left = (original_width - new_width) // 2`); taller sources crop y.
The source's float quotient tests are carried out exactly by
cross-multiplication (`oh, th > 0` at every call site):
`|ow/oh − tw/th| < 1/100  ⟺  100·|ow·th − tw·oh| < oh·th`,
`ow/oh > tw/th  ⟺  tw·oh < ow·th`, and the floors of the float products
`int(oh·(tw/th)) = oh·tw/th`, `int(ow/(tw/th)) = ow·th/tw` in ℕ division. -/
def smartCropOffsets (ow oh tw th : ℕ) : Option (ℕ × ℕ) :=
  if 100 * ((ow * th - tw * oh) + (tw * oh - ow * th)) < oh * th then none
  else if tw * oh < ow * th then
    let nw := oh * tw / th
    let l := (ow - nw) / 2
    some (l, ow - nw - l)
  else
    let nh := ow * th / tw
    let u := (oh - nh) / 2
    some (u, oh - nh - u)

/-- Apply `_smart_resize`'s crop step (identity when aspects already match). -/
def smartCropped (img : PILImage) (tw th : ℕ) : PILImage :=
  match smartCropOffsets img.width img.height tw th with
  | none => img
  | some (lo, hi) =>
    if tw * img.height < img.width * th then
      img.crop lo 0 (img.width - hi) img.height
    else
      img.crop 0 lo img.width (img.height - hi)

def smart_resize_body (env : Env) (target : ℕ × ℕ) (sfx : String) :
    PyResult (Option OutFile) :=
  raiseIf (env.exnAt .smartRz) <|
  match env.openPIL with
  | .exn => .exn
  | .ok img0 =>
    -- `original_width / original_height` and `target_width / target_height`
    -- raise ZeroDivisionError on a zero divisor (unreachable for real
    -- decoded images and the fixed HD/4K targets).
    if img0.height = 0 ∨ target.2 = 0 then .exn
    else
      let resized := (smartCropped img0 target.1 target.2).resize target
      let enhanced := sharpen resized (11/10)
      .ok (some ⟨TEMP_DIR, outName env.inputBase sfx, enhanced, .jpeg 95 false⟩)

def smart_resize (env : Env) (target : ℕ × ℕ) (sfx : String) : Option OutFile :=
  pyCatch (smart_resize_body env target sfx) (fun _ => none)

/-! ## Dimension lemmas for the two resize helpers -/

theorem simple_resize_dims (env : Env) (target : ℕ × ℕ) (sfx : String)
    (f : OutFile) (h : simple_resize env target sfx = some f) :
    f.img.width = target.1 ∧ f.img.height = target.2 := by
  cases hb : env.exnAt .simpleRz with
  | true =>
    simp [simple_resize, simple_resize_body, raiseIf, pyCatch, hb] at h
  | false =>
    cases henv : env.pilImage with
    | none =>
      simp [simple_resize, simple_resize_body, raiseIf, pyCatch, Env.openPIL,
        hb, henv] at h
    | some img0 =>
      simp only [simple_resize, simple_resize_body, raiseIf, pyCatch,
        Env.openPIL, hb, henv, Bool.false_eq_true, if_false,
        Option.some.injEq] at h
      subst h
      exact ⟨rfl, rfl⟩

theorem smart_resize_dims (env : Env) (target : ℕ × ℕ) (sfx : String)
    (f : OutFile) (h : smart_resize env target sfx = some f) :
    f.img.width = target.1 ∧ f.img.height = target.2 := by
  cases hb : env.exnAt .smartRz with
  | true =>
    simp [smart_resize, smart_resize_body, raiseIf, pyCatch, hb] at h
  | false =>
    cases henv : env.pilImage with
    | none =>
      simp [smart_resize, smart_resize_body, raiseIf, pyCatch, Env.openPIL,
        hb, henv] at h
    | some img0 =>
      by_cases hz : img0.height = 0 ∨ target.2 = 0
      · simp [smart_resize, smart_resize_body, raiseIf, pyCatch, Env.openPIL,
          hb, henv, hz] at h
      · simp only [smart_resize, smart_resize_body, raiseIf, pyCatch,
          Env.openPIL, hb, henv, hz, Bool.false_eq_true, if_false,
          Option.some.injEq] at h
        subst h
        exact ⟨rfl, rfl⟩

/-! ## Strategy selection (`_process_to_hd`, `_process_to_4k`,
`_process_to_4k_compressed` branch structure) -/

/-- The algorithm paths the processing functions branch between. -/
inductive Strategy
  | smartCrop
  | simpleFallback
  | advancedSingle
  | progressiveMulti
  | conservativeTwoStep
  | directResize
  deriving DecidableEq

/-- `max_scale = max(target_width / width, target_height / height)`, the
quantity the source's scale-factor branches compare (stated over ℚ; the
executable branch conditions below carry out the same comparisons by
cross-multiplication). -/
def maxScaleQ (w h tw th : ℕ) : ℚ :=
  max ((tw : ℚ) / (w : ℚ)) ((th : ℚ) / (h : ℚ))

/-- `_process_to_hd`'s branch on a loaded cv image: smart resize when the
source meets the target in both dimensions, otherwise the single-step
bilateral-filter + cubic-resize + sharpen path (there is no scale-factor
branch in the HD routine). -/
def hdStrategy (w h : ℕ) : Strategy :=
  if w ≥ 1920 ∧ h ≥ 1080 then .smartCrop else .advancedSingle

/-- `_process_to_4k`'s branch on a loaded cv image
(`max_scale > 8.0  ⟺  8·w < 3840 ∨ 8·h < 2160` for positive `w, h`). -/
def fourKStrategy (w h : ℕ) : Strategy :=
  if w ≥ 3840 ∧ h ≥ 2160 then .smartCrop
  else if 8 * w < 3840 ∨ 8 * h < 2160 then .simpleFallback
  else .progressiveMulti

/-- `_process_to_4k_compressed`'s branch on the decoded PIL image
(`max_scale > 10.0  ⟺  10·w < 3840 ∨ 10·h < 2160` for positive `w, h`). -/
def fourKCStrategy (w h : ℕ) : Strategy :=
  if 10 * w < 3840 ∨ 10 * h < 2160 then .conservativeTwoStep
  else .directResize

/-! ## `_process_to_hd` -/

def process_to_hd_body (env : Env) : PyResult (Option OutFile) :=
  raiseIf (env.exnAt .hd) <|
  match env.cvImage with
  | none => .ok (simple_resize env HD_SIZE "HD")
  | some img =>
    match hdStrategy img.width img.height with
    | .smartCrop => .ok (smart_resize env HD_SIZE "HD")
    | _ =>
      let filtered := img.bilateral 9 75 75
      let upscaled := filtered.resizeCv HD_SIZE
      let sharpened := upscaled.filter2D
      let finalImg := cvAddWeighted upscaled (3/10) sharpened (7/10)
      .ok (some ⟨TEMP_DIR, outName env.inputBase "HD", finalImg.toPIL,
        .jpeg 95 false⟩)

def process_to_hd (env : Env) : Option OutFile :=
  pyCatch (process_to_hd_body env) (fun _ => simple_resize env HD_SIZE "HD")

/-! ## `_process_to_4k` -/

/-- The guard of the multi-step upscaling `while` loop. -/
def fourKLoopCond (cw ch : ℕ) : Bool :=
  cw < 3840 ∨ ch < 2160

/-- One loop body's new dimensions:
`scale_factor = min(2.0, target_width / cw, target_height / ch)`,
`new = (int(cw * scale_factor), int(ch * scale_factor))`.  The scale factor
is kept as an exact fraction `sf.1 / sf.2` (positive denominators at every
call: the loop starts from positive cv dimensions), chosen by
cross-multiplied comparison, and the floors of the products are ℕ
divisions. -/
def fourKStepSize (cw ch : ℕ) : ℕ × ℕ :=
  let sf : ℕ × ℕ :=
    if 2 * cw ≤ 3840 ∧ 2 * ch ≤ 2160 then (2, 1)
    else if 3840 * ch ≤ 2160 * cw then (3840, cw)
    else (2160, ch)
  (cw * sf.1 / sf.2, ch * sf.1 / sf.2)

/-- The multi-step upscaling loop of `_process_to_4k`: carries the step
counter and the current dimensions, increments the counter at the top of
the body, and breaks after a body whose counter exceeds 5.  Returns the
final dimensions and the number of executed bodies.  The recursion runs on
the bound the `break` itself enforces (`6 - sd` bodies remain before the
counter exceeds 5), so the fuel-0 arm is unreachable from `fourKLoop`. -/
def fourKLoopAux : ℕ → ℕ → ℕ → ℕ → ℕ × ℕ × ℕ
  | 0, sd, cw, ch => (cw, ch, sd)
  | fuel + 1, sd, cw, ch =>
    if fourKLoopCond cw ch then
      let p := fourKStepSize cw ch
      if sd + 1 > 5 then (p.1, p.2, sd + 1)
      else fourKLoopAux fuel (sd + 1) p.1 p.2
    else (cw, ch, sd)

def fourKLoop (sd cw ch : ℕ) : ℕ × ℕ × ℕ :=
  fourKLoopAux (6 - sd) sd cw ch

/-- Number of loop bodies `_process_to_4k`'s multi-step loop executes. -/
def fourKLoopSteps (w h : ℕ) : ℕ :=
  (fourKLoop 0 w h).2.2

def process_to_4k_body (env : Env) : PyResult (Option OutFile) :=
  raiseIf (env.exnAt .fourK) <|
  match env.cvImage with
  | none => .ok (simple_resize env UHD_4K_SIZE "4K")
  | some img =>
    match fourKStrategy img.width img.height with
    | .smartCrop => .ok (smart_resize env UHD_4K_SIZE "4K")
    | .simpleFallback => .ok (simple_resize env UHD_4K_SIZE "4K")
    | _ =>
      -- `target_width / width` raises ZeroDivisionError on a zero dimension
      -- (unreachable for real decoded images).
      if img.width = 0 ∨ img.height = 0 then .exn
      else
        let r := fourKLoop 0 img.width img.height
        let loopImg : CvImage := ⟨r.1, r.2.1⟩
        let finalImg :=
          if r.1 ≠ 3840 ∨ r.2.1 ≠ 2160 then loopImg.resizeCv UHD_4K_SIZE
          else loopImg
        let blurred := finalImg.gaussian 1
        let sharpened := cvAddWeighted finalImg (6/5) blurred (-(1/5))
        if env.cvWriteOk then
          .ok (some ⟨TEMP_DIR, outName env.inputBase "4K", sharpened.toPIL,
            .jpeg 95 false⟩)
        else .ok none

def process_to_4k (env : Env) : Option OutFile :=
  pyCatch (process_to_4k_body env) (fun _ => simple_resize env UHD_4K_SIZE "4K")

/-! ## `_process_to_4k_compressed` -/

/-- The JPEG-compatibility normalization shared by `_process_to_4k_compressed`
and `_convert_format('JPEG')`: alpha/palette images are pasted onto a white
RGB background, anything else not already RGB is converted. -/
def normalizeToRGB (img : PILImage) : PILImage :=
  if img.mode = .RGBA ∨ img.mode = .LA ∨ img.mode = .P then
    -- white background of `img.size`, paste, result is the RGB background
    ⟨.RGB, img.width, img.height⟩
  else if img.mode ≠ .RGB then img.convert .RGB
  else img

def process_to_4k_compressed_body (env : Env) : PyResult (Option OutFile) :=
  raiseIf (env.exnAt .fourKCompressed) <|
  match env.openPIL with
  | .exn => .exn
  | .ok img0 =>
    let img := normalizeToRGB img0
    -- `target_width / original_width` raises ZeroDivisionError on a zero
    -- dimension (unreachable for real decoded images).
    if img.width = 0 ∨ img.height = 0 then .exn
    else
      let stretched :=
        match fourKCStrategy img.width img.height with
        | .conservativeTwoStep =>
          let inter := (min 3840 (img.width * 4), min 2160 (img.height * 4))
          img.resize inter
        | _ => img
      let resized := stretched.resize UHD_4K_SIZE
      let enhanced := sharpen resized (11/10)
      .ok (some ⟨TEMP_DIR, outName env.inputBase "4K_compressed", enhanced,
        .jpeg 75 true⟩)

def process_to_4k_compressed (env : Env) : Option OutFile :=
  pyCatch (process_to_4k_compressed_body env)
    (fun _ => simple_resize env UHD_4K_SIZE "4K_compressed")

/-! ## `_optimize_image` -/

def optimize_image_body (env : Env) : PyResult (Option OutFile) :=
  raiseIf (env.exnAt .optimizeImage) <|
  match env.openPIL with
  | .exn => .exn
  | .ok img0 =>
    let img1 :=
      if img0.mode = .RGBA ∨ img0.mode = .LA ∨ img0.mode = .P then
        img0.convert .RGB
      else img0
    -- `int(original_height * (2048 / original_width))` computed exactly:
    -- `h·2048/w` in ℕ division (the divisor exceeds 2048 in this branch)
    let img2 :=
      if max img1.width img1.height > 2048 then
        if img1.width > img1.height then
          img1.resize (2048, img1.height * 2048 / img1.width)
        else
          img1.resize (img1.width * 2048 / img1.height, 2048)
      else img1
    let img3 := sharpen img2 (11/10)
    .ok (some ⟨TEMP_DIR, outName env.inputBase "optimized", img3, .jpeg 85 true⟩)

def optimize_image (env : Env) : Option OutFile :=
  pyCatch (optimize_image_body env) (fun _ => none)

/-! ## `_convert_format` -/

def convert_format_body (env : Env) (fmt : String) : PyResult (Option OutFile) :=
  raiseIf (env.exnAt .convertFormatR) <|
  match env.openPIL with
  | .exn => .exn
  | .ok img0 =>
    let up := strUpper fmt
    let img :=
      if up = "JPEG" then normalizeToRGB img0
      else if up = "PNG" then
        (if img0.mode = .RGB ∨ img0.mode = .RGBA ∨ img0.mode = .L ∨ img0.mode = .LA
         then img0 else img0.convert .RGBA)
      else if up = "WEBP" then
        (if img0.mode = .P then img0.convert .RGBA else img0)
      else img0
    let oname := env.inputBase ++ "_converted." ++ strLower fmt
    let enc :=
      if up = "JPEG" then Encoding.jpeg 95 false
      else if up = "PNG" then Encoding.png
      else if up = "WEBP" then Encoding.webp 95
      else Encoding.named up
    .ok (some ⟨TEMP_DIR, oname, img, enc⟩)

def convert_format (env : Env) (fmt : String) : Option OutFile :=
  pyCatch (convert_format_body env fmt) (fun _ => none)

/-! ## `_custom_upscale` and its three mode implementations -/

/-- `_standard_upscale_image`. -/
def standard_upscale_image (img : PILImage) (target : ℕ × ℕ) : PILImage :=
  img.resize target

/-- Number of iterations `_smart_upscale_image`'s progressive loop runs:
`int(np.log2(max_scale)) + 1` when `max_scale > 4.0`, else the loop is not
entered (single-step resize).  Exactly: `max_scale > 4 ⟺ 4w < tw ∨ 4h < th`
and `int(log2 max_scale) = ⌊log2 ⌊max_scale⌋⌋ = natLog2 (max (tw/w) (th/h))`
in ℕ division, for positive `w, h`. -/
def smartUpIterCount (w h tw th : ℕ) : ℕ :=
  if 4 * w < tw ∨ 4 * h < th then natLog2 (max (tw / w) (th / h)) + 1 else 0

/-- The progressive loop of `_smart_upscale_image` (`for step in
range(steps)`): on the final iteration resize to the exact target, otherwise
to `(min(int(w * 2^(step+1)), tw), min(int(h * 2^(step+1)), th))`, with a
mild sharpness boost after every non-final iteration.  The recursion runs on
the remaining iteration count `steps - step`. -/
def smartLoopF : ℕ → ℕ → ℕ → ℕ → ℕ → ℕ → ℕ → PILImage → PILImage
  | 0, _, _, _, _, _, _, cur => cur
  | fuel + 1, ow, oh, tw, th, steps, step, cur =>
    if step < steps then
      let isize :=
        if step = steps - 1 then (tw, th)
        else (min (ow * 2 ^ (step + 1)) tw, min (oh * 2 ^ (step + 1)) th)
      let resized := cur.resize isize
      let cur' := if step < steps - 1 then sharpen resized (21/20) else resized
      smartLoopF fuel ow oh tw th steps (step + 1) cur'
    else cur

def smartLoop (ow oh tw th steps step : ℕ) (cur : PILImage) : PILImage :=
  smartLoopF (steps - step) ow oh tw th steps step cur

/-- `_smart_upscale_image`. -/
def smart_upscale_image (img : PILImage) (target : ℕ × ℕ) : PILImage :=
  let steps := smartUpIterCount img.width img.height target.1 target.2
  let cur :=
    if steps = 0 then img.resize target
    else smartLoop img.width img.height target.1 target.2 steps 0 img
  sharpen cur (11/10)

/-- `_max_quality_upscale_image`'s try body: for RGB/RGBA buffers the
cv round-trip (convert color, bilateral filter, cubic resize to target,
unsharp mask, convert back — mode preserved, dimensions become the target);
other layouts fall through to the smart path. -/
def max_quality_upscale_body (env : Env) (img : PILImage) (target : ℕ × ℕ) :
    PyResult PILImage :=
  raiseIf (env.exnAt .maxUp) <|
  if img.mode = .RGB ∨ img.mode = .RGBA then
    let cvBuf : CvImage := ⟨img.width, img.height⟩
    let denoised := cvBuf.bilateral 9 75 75
    let upscaled := denoised.resizeCv target
    let blurred := upscaled.gaussian 2
    let masked := cvAddWeighted upscaled (3/2) blurred (-(1/2))
    .ok ⟨img.mode, masked.width, masked.height⟩
  else .ok (smart_upscale_image img target)

/-- `_max_quality_upscale_image` (falls back to smart upscaling on error). -/
def max_quality_upscale_image (env : Env) (img : PILImage) (target : ℕ × ℕ) :
    PILImage :=
  pyCatch (max_quality_upscale_body env img target)
    (fun _ => smart_upscale_image img target)

/-- The channel normalization at the top of `_custom_upscale`: palette is
expanded, then alpha-capable layouts (RGBA, LA, P) all become RGBA; anything
else not already RGB becomes RGB. -/
def customNormalize (img : PILImage) : PILImage :=
  if img.mode = .RGBA ∨ img.mode = .LA ∨ img.mode = .P then
    let i := if img.mode = .P then img.convert .RGBA else img
    if i.mode ≠ .RGBA then i.convert .RGBA else i
  else if img.mode ≠ .RGB then img.convert .RGB
  else img

/-- The buffer `_custom_upscale` computes before saving: normalize the
channel layout, derive the target `source × scale_factor`, and dispatch on
the requested mode (any unrecognized mode string is standard). -/
def customUpscaled (env : Env) (img0 : PILImage) (s : ℕ) (modeStr : String) :
    PILImage :=
  let img := customNormalize img0
  let nw := img.width * s
  let nh := img.height * s
  if modeStr = "smart" then smart_upscale_image img (nw, nh)
  else if modeStr = "max" then max_quality_upscale_image env img (nw, nh)
  else standard_upscale_image img (nw, nh)

def custom_upscale_body (env : Env) (s : ℕ) (modeStr : String) :
    PyResult (Option OutFile) :=
  raiseIf (env.exnAt .customUp) <|
  match env.openPIL with
  | .exn => .exn
  | .ok img0 =>
    let upscaled := customUpscaled env img0 s modeStr
    let baseName := outName env.inputBase (toString s ++ "x_" ++ modeStr)
    if upscaled.mode = .RGBA then
      .ok (some ⟨TEMP_DIR, strReplace baseName ".jpg" ".png", upscaled, .png⟩)
    else
      .ok (some ⟨TEMP_DIR, baseName, upscaled, .jpeg 95 true⟩)

def custom_upscale (env : Env) (s : ℕ) (modeStr : String) : Option OutFile :=
  pyCatch (custom_upscale_body env s modeStr) (fun _ => none)

/-! ## Public entry points (the async wrappers of `ImageProcessor`) -/

def enhance_to_hd (env : Env) : PyResult (Option OutFile) :=
  pyCatchR (raiseIf (env.exnAt .pubHd) (.ok (process_to_hd env)))
    (fun _ => .ok none)

def enhance_to_4k (env : Env) : PyResult (Option OutFile) :=
  pyCatchR (raiseIf (env.exnAt .pubFourK) (.ok (process_to_4k env)))
    (fun _ => .ok none)

def enhance_to_4k_compressed (env : Env) : PyResult (Option OutFile) :=
  pyCatchR (raiseIf (env.exnAt .pubFourKCompressed)
    (.ok (process_to_4k_compressed env))) (fun _ => .ok none)

def optimize_image_pub (env : Env) : PyResult (Option OutFile) :=
  pyCatchR (raiseIf (env.exnAt .pubOptimize) (.ok (optimize_image env)))
    (fun _ => .ok none)

def convert_format_pub (env : Env) (fmt : String) : PyResult (Option OutFile) :=
  pyCatchR (raiseIf (env.exnAt .pubConvert) (.ok (convert_format env fmt)))
    (fun _ => .ok none)

def custom_upscale_pub (env : Env) (s : ℕ) (modeStr : String) :
    PyResult (Option OutFile) :=
  pyCatchR (raiseIf (env.exnAt .pubCustom) (.ok (custom_upscale env s modeStr)))
    (fun _ => .ok none)

/-! ## `FileUtils` (`utils/file_utils.py`) -/

/-- `os.path.splitext(filename)[1]`: the extension starts at the last dot of
the final path component, where the component's leading dots never start an
extension. -/
def splitextExt (filename : String) : String :=
  let base := ((filename.data.reverse.takeWhile (fun c => c ≠ '/')).reverse)
  let lead := base.takeWhile (fun c => c = '.')
  let rest := base.drop lead.length
  if rest.contains '.' then
    String.mk ('.' :: (rest.reverse.takeWhile (fun c => c ≠ '.')).reverse)
  else ""

/-- `FileUtils.get_file_extension`. -/
def get_file_extension (filename : String) : String :=
  strLower (splitextExt filename)

/-- `FileUtils.is_image_file`. -/
def is_image_file (filename : String) : Bool :=
  get_file_extension filename ∈
    [".jpg", ".jpeg", ".png", ".webp", ".bmp", ".tiff", ".gif"]

/-! ## Dimension lemmas for the upscale paths -/

theorem smartLoopF_done (fuel ow oh tw th steps step : ℕ) (cur : PILImage)
    (h : ¬ step < steps) : smartLoopF fuel ow oh tw th steps step cur = cur := by
  cases fuel with
  | zero => rfl
  | succ n => simp [smartLoopF, h]

theorem smartLoopF_dims (ow oh tw th : ℕ) :
    ∀ fuel steps step cur, steps - step ≤ fuel → step < steps →
      (smartLoopF fuel ow oh tw th steps step cur).width = tw ∧
      (smartLoopF fuel ow oh tw th steps step cur).height = th := by
  intro fuel
  induction fuel with
  | zero => intro steps step cur h1 h2; omega
  | succ n ih =>
    intro steps step cur h1 h2
    simp only [smartLoopF, if_pos h2]
    by_cases hnext : step + 1 < steps
    · exact ih steps (step + 1) _ (by omega) hnext
    · rw [smartLoopF_done n ow oh tw th steps (step + 1) _ (by omega)]
      have hstep : step = steps - 1 := by omega
      subst hstep
      simp [sharpen, PILImage.resize]

theorem smartLoop_dims (ow oh tw th steps step : ℕ) (cur : PILImage)
    (h2 : step < steps) :
    (smartLoop ow oh tw th steps step cur).width = tw ∧
    (smartLoop ow oh tw th steps step cur).height = th :=
  smartLoopF_dims ow oh tw th (steps - step) steps step cur (le_refl _) h2

theorem smart_upscale_image_dims (img : PILImage) (t : ℕ × ℕ) :
    (smart_upscale_image img t).width = t.1 ∧
    (smart_upscale_image img t).height = t.2 := by
  unfold smart_upscale_image
  by_cases hs : smartUpIterCount img.width img.height t.1 t.2 = 0
  · simp only [hs, if_pos rfl, sharpen]
    exact ⟨rfl, rfl⟩
  · simp only [if_neg hs, sharpen]
    exact smartLoop_dims img.width img.height t.1 t.2 _ 0 img (by omega)

theorem max_quality_upscale_image_dims (env : Env) (img : PILImage)
    (t : ℕ × ℕ) :
    (max_quality_upscale_image env img t).width = t.1 ∧
    (max_quality_upscale_image env img t).height = t.2 := by
  unfold max_quality_upscale_image max_quality_upscale_body raiseIf
  by_cases hb : env.exnAt .maxUp = true
  · simp only [hb, if_true, pyCatch]
    exact smart_upscale_image_dims img t
  · by_cases hm : img.mode = .RGB ∨ img.mode = .RGBA
    · simp only [hb, if_false, hm, if_true, pyCatch, Bool.false_eq_true]
      exact ⟨rfl, rfl⟩
    · simp only [hb, if_false, hm, pyCatch, Bool.false_eq_true]
      exact smart_upscale_image_dims img t

theorem simple_resize_enc (env : Env) (target : ℕ × ℕ) (sfx : String)
    (f : OutFile) (h : simple_resize env target sfx = some f) :
    f.enc = .jpeg 95 false := by
  cases hb : env.exnAt .simpleRz with
  | true =>
    simp [simple_resize, simple_resize_body, raiseIf, pyCatch, hb] at h
  | false =>
    cases henv : env.pilImage with
    | none =>
      simp [simple_resize, simple_resize_body, raiseIf, pyCatch, Env.openPIL,
        hb, henv] at h
    | some img0 =>
      simp only [simple_resize, simple_resize_body, raiseIf, pyCatch,
        Env.openPIL, hb, henv, Bool.false_eq_true, if_false,
        Option.some.injEq] at h
      subst h
      rfl

theorem smart_resize_enc (env : Env) (target : ℕ × ℕ) (sfx : String)
    (f : OutFile) (h : smart_resize env target sfx = some f) :
    f.enc = .jpeg 95 false := by
  cases hb : env.exnAt .smartRz with
  | true =>
    simp [smart_resize, smart_resize_body, raiseIf, pyCatch, hb] at h
  | false =>
    cases henv : env.pilImage with
    | none =>
      simp [smart_resize, smart_resize_body, raiseIf, pyCatch, Env.openPIL,
        hb, henv] at h
    | some img0 =>
      by_cases hz : img0.height = 0 ∨ target.2 = 0
      · simp [smart_resize, smart_resize_body, raiseIf, pyCatch, Env.openPIL,
          hb, henv, hz] at h
      · simp only [smart_resize, smart_resize_body, raiseIf, pyCatch,
          Env.openPIL, hb, henv, hz, Bool.false_eq_true, if_false,
          Option.some.injEq] at h
        subst h
        rfl

/-! ## Mode and dimension lemmas for the custom-upscale paths -/

theorem customNormalize_dims (i : PILImage) :
    (customNormalize i).width = i.width ∧ (customNormalize i).height = i.height := by
  rcases i with ⟨m, w, h⟩
  cases m <;> simp [customNormalize, PILImage.convert]

theorem customNormalize_mode (i : PILImage) :
    (customNormalize i).mode =
      (if i.mode = .RGBA ∨ i.mode = .LA ∨ i.mode = .P then .RGBA else .RGB) := by
  unfold customNormalize
  rcases i with ⟨m, w, h⟩
  cases m <;> simp [PILImage.convert]

theorem smartLoopF_mode (ow oh tw th : ℕ) :
    ∀ fuel steps step cur,
      (smartLoopF fuel ow oh tw th steps step cur).mode = cur.mode := by
  intro fuel
  induction fuel with
  | zero => intro steps step cur; rfl
  | succ n ih =>
    intro steps step cur
    by_cases h : step < steps
    · simp only [smartLoopF, if_pos h]
      rw [ih]
      split <;> rfl
    · simp only [smartLoopF, if_neg h]

theorem smartLoop_mode (ow oh tw th steps step : ℕ) (cur : PILImage) :
    (smartLoop ow oh tw th steps step cur).mode = cur.mode :=
  smartLoopF_mode ow oh tw th (steps - step) steps step cur

theorem smart_upscale_image_mode (img : PILImage) (t : ℕ × ℕ) :
    (smart_upscale_image img t).mode = img.mode := by
  unfold smart_upscale_image
  by_cases hs : smartUpIterCount img.width img.height t.1 t.2 = 0
  · simp only [hs, if_pos rfl, sharpen]
    rfl
  · simp only [if_neg hs, sharpen]
    exact smartLoop_mode img.width img.height t.1 t.2 _ 0 img

theorem max_quality_upscale_image_mode (env : Env) (img : PILImage)
    (t : ℕ × ℕ) :
    (max_quality_upscale_image env img t).mode = img.mode := by
  unfold max_quality_upscale_image max_quality_upscale_body raiseIf
  by_cases hb : env.exnAt .maxUp = true
  · simp only [hb, if_true, pyCatch]
    exact smart_upscale_image_mode img t
  · by_cases hm : img.mode = .RGB ∨ img.mode = .RGBA
    · simp only [hb, if_false, hm, if_true, pyCatch, Bool.false_eq_true]
    · simp only [hb, if_false, hm, pyCatch, Bool.false_eq_true]
      exact smart_upscale_image_mode img t

theorem customUpscaled_dims (env : Env) (img0 : PILImage) (s : ℕ)
    (m : String) :
    (customUpscaled env img0 s m).width = img0.width * s ∧
    (customUpscaled env img0 s m).height = img0.height * s := by
  unfold customUpscaled
  obtain ⟨hw, hh⟩ := customNormalize_dims img0
  split
  · obtain ⟨h1, h2⟩ := smart_upscale_image_dims (customNormalize img0)
      ((customNormalize img0).width * s, (customNormalize img0).height * s)
    rw [h1, h2, hw, hh]
    exact ⟨rfl, rfl⟩
  · split
    · obtain ⟨h1, h2⟩ := max_quality_upscale_image_dims env (customNormalize img0)
        ((customNormalize img0).width * s, (customNormalize img0).height * s)
      rw [h1, h2, hw, hh]
      exact ⟨rfl, rfl⟩
    · unfold standard_upscale_image
      simp only [PILImage.resize]
      rw [hw, hh]
      exact ⟨rfl, rfl⟩

theorem customUpscaled_mode (env : Env) (img0 : PILImage) (s : ℕ)
    (m : String) :
    (customUpscaled env img0 s m).mode =
      (if img0.mode = .RGBA ∨ img0.mode = .LA ∨ img0.mode = .P
       then .RGBA else .RGB) := by
  unfold customUpscaled
  rw [← customNormalize_mode]
  split
  · exact smart_upscale_image_mode _ _
  · split
    · exact max_quality_upscale_image_mode _ _ _
    · rfl

/-- Inversion for a successful `_custom_upscale`: the decoded image exists,
the saved buffer is the mode-dispatched upscale, and the encoding is PNG
exactly when that buffer is RGBA, JPEG quality 95 (progressive) otherwise. -/
theorem custom_upscale_some (env : Env) (s : ℕ) (m : String) (f : OutFile)
    (h : custom_upscale env s m = some f) :
    ∃ img0, env.pilImage = some img0 ∧
      f.img = customUpscaled env img0 s m ∧
      f.enc = (if (customUpscaled env img0 s m).mode = .RGBA
               then Encoding.png else Encoding.jpeg 95 true) := by
  cases hb : env.exnAt .customUp with
  | true =>
    simp [custom_upscale, custom_upscale_body, raiseIf, pyCatch, hb] at h
  | false =>
    cases henv : env.pilImage with
    | none =>
      simp [custom_upscale, custom_upscale_body, raiseIf, pyCatch,
        Env.openPIL, hb, henv] at h
    | some img0 =>
      refine ⟨img0, rfl, ?_⟩
      by_cases hm : (customUpscaled env img0 s m).mode = .RGBA
      · simp only [custom_upscale, custom_upscale_body, raiseIf, pyCatch,
          Env.openPIL, hb, henv, Bool.false_eq_true, if_false, hm, if_true,
          Option.some.injEq] at h
        subst h
        simp [hm]
      · simp only [custom_upscale, custom_upscale_body, raiseIf, pyCatch,
          Env.openPIL, hb, henv, Bool.false_eq_true, if_false, hm,
          Option.some.injEq] at h
        subst h
        simp [hm]

/-! ## Per-operation success inversion lemmas -/

theorem simple_resize_spec (env : Env) (target : ℕ × ℕ) (sfx : String)
    (f : OutFile) (h : simple_resize env target sfx = some f) :
    f.img.width = target.1 ∧ f.img.height = target.2 ∧
    f.enc = .jpeg 95 false :=
  ⟨(simple_resize_dims env target sfx f h).1,
   (simple_resize_dims env target sfx f h).2,
   simple_resize_enc env target sfx f h⟩

theorem smart_resize_spec (env : Env) (target : ℕ × ℕ) (sfx : String)
    (f : OutFile) (h : smart_resize env target sfx = some f) :
    f.img.width = target.1 ∧ f.img.height = target.2 ∧
    f.enc = .jpeg 95 false :=
  ⟨(smart_resize_dims env target sfx f h).1,
   (smart_resize_dims env target sfx f h).2,
   smart_resize_enc env target sfx f h⟩

theorem process_to_hd_spec (env : Env) (f : OutFile)
    (h : process_to_hd env = some f) :
    f.img.width = 1920 ∧ f.img.height = 1080 ∧ f.enc = .jpeg 95 false := by
  cases hb : env.exnAt .hd with
  | true =>
    have h' : process_to_hd env = simple_resize env HD_SIZE "HD" := by
      unfold process_to_hd process_to_hd_body raiseIf
      rw [hb]
      rfl
    rw [h'] at h
    exact simple_resize_spec env HD_SIZE "HD" f h
  | false =>
    cases hcv : env.cvImage with
    | none =>
      simp only [process_to_hd, process_to_hd_body, raiseIf, hb,
        Bool.false_eq_true, if_false, hcv, pyCatch] at h
      exact simple_resize_spec env HD_SIZE "HD" f h
    | some img =>
      cases hst : hdStrategy img.width img.height with
      | smartCrop =>
        simp only [process_to_hd, process_to_hd_body, raiseIf, hb,
          Bool.false_eq_true, if_false, hcv, hst, pyCatch] at h
        exact smart_resize_spec env HD_SIZE "HD" f h
      | _ =>
        simp only [process_to_hd, process_to_hd_body, raiseIf, hb,
          Bool.false_eq_true, if_false, hcv, hst, pyCatch,
          Option.some.injEq] at h
        subst h
        exact ⟨rfl, rfl, rfl⟩

theorem process_to_4k_spec (env : Env) (f : OutFile)
    (h : process_to_4k env = some f) :
    f.img.width = 3840 ∧ f.img.height = 2160 ∧ f.enc = .jpeg 95 false := by
  cases hb : env.exnAt .fourK with
  | true =>
    have h' : process_to_4k env = simple_resize env UHD_4K_SIZE "4K" := by
      unfold process_to_4k process_to_4k_body raiseIf
      rw [hb]
      rfl
    rw [h'] at h
    exact simple_resize_spec env UHD_4K_SIZE "4K" f h
  | false =>
    cases hcv : env.cvImage with
    | none =>
      simp only [process_to_4k, process_to_4k_body, raiseIf, hb,
        Bool.false_eq_true, if_false, hcv, pyCatch] at h
      exact simple_resize_spec env UHD_4K_SIZE "4K" f h
    | some img =>
      cases hst : fourKStrategy img.width img.height with
      | smartCrop =>
        simp only [process_to_4k, process_to_4k_body, raiseIf, hb,
          Bool.false_eq_true, if_false, hcv, hst, pyCatch] at h
        exact smart_resize_spec env UHD_4K_SIZE "4K" f h
      | simpleFallback =>
        simp only [process_to_4k, process_to_4k_body, raiseIf, hb,
          Bool.false_eq_true, if_false, hcv, hst, pyCatch] at h
        exact simple_resize_spec env UHD_4K_SIZE "4K" f h
      | _ =>
        by_cases hz : img.width = 0 ∨ img.height = 0
        · simp only [process_to_4k, process_to_4k_body, raiseIf, hb,
            Bool.false_eq_true, if_false, hcv, hst, hz, if_true, pyCatch] at h
          exact simple_resize_spec env UHD_4K_SIZE "4K" f h
        · cases hw : env.cvWriteOk with
          | false =>
            simp [process_to_4k, process_to_4k_body, raiseIf, hb, hcv, hst,
              hz, hw, pyCatch] at h
          | true =>
            by_cases hr : (fourKLoop 0 img.width img.height).1 ≠ 3840 ∨
                (fourKLoop 0 img.width img.height).2.1 ≠ 2160
            · simp only [process_to_4k, process_to_4k_body, raiseIf, hb,
                Bool.false_eq_true, if_false, hcv, hst, hz, hw, hr, if_true,
                pyCatch, Option.some.injEq] at h
              subst h
              exact ⟨rfl, rfl, rfl⟩
            · push_neg at hr
              simp only [process_to_4k, process_to_4k_body, raiseIf, hb,
                Bool.false_eq_true, if_false, hcv, hst, hz, hw, pyCatch,
                ne_eq, hr.1, hr.2, not_true_eq_false, or_self, if_false,
                if_true, Option.some.injEq] at h
              subst h
              exact ⟨rfl, rfl, rfl⟩

theorem normalizeToRGB_dims (i : PILImage) :
    (normalizeToRGB i).width = i.width ∧ (normalizeToRGB i).height = i.height := by
  rcases i with ⟨m, w, h⟩
  cases m <;> simp [normalizeToRGB, PILImage.convert]

theorem process_to_4k_compressed_spec (env : Env) (f : OutFile)
    (h : process_to_4k_compressed env = some f) :
    f.img.width = 3840 ∧ f.img.height = 2160 ∧
    (f.enc = .jpeg 75 true ∨ f.enc = .jpeg 95 false) := by
  cases hb : env.exnAt .fourKCompressed with
  | true =>
    have h' : process_to_4k_compressed env =
        simple_resize env UHD_4K_SIZE "4K_compressed" := by
      unfold process_to_4k_compressed process_to_4k_compressed_body raiseIf
      rw [hb]
      rfl
    rw [h'] at h
    obtain ⟨h1, h2, h3⟩ := simple_resize_spec env UHD_4K_SIZE "4K_compressed" f h
    exact ⟨h1, h2, Or.inr h3⟩
  | false =>
    cases henv : env.pilImage with
    | none =>
      simp only [process_to_4k_compressed, process_to_4k_compressed_body,
        raiseIf, hb, Bool.false_eq_true, if_false, Env.openPIL, henv,
        pyCatch] at h
      obtain ⟨h1, h2, h3⟩ :=
        simple_resize_spec env UHD_4K_SIZE "4K_compressed" f h
      exact ⟨h1, h2, Or.inr h3⟩
    | some img0 =>
      by_cases hz : (normalizeToRGB img0).width = 0 ∨
          (normalizeToRGB img0).height = 0
      · simp only [process_to_4k_compressed, process_to_4k_compressed_body,
          raiseIf, hb, Bool.false_eq_true, if_false, Env.openPIL, henv, hz,
          if_true, pyCatch] at h
        obtain ⟨h1, h2, h3⟩ :=
          simple_resize_spec env UHD_4K_SIZE "4K_compressed" f h
        exact ⟨h1, h2, Or.inr h3⟩
      · cases hst : fourKCStrategy (normalizeToRGB img0).width
            (normalizeToRGB img0).height with
        | conservativeTwoStep =>
          simp only [process_to_4k_compressed, process_to_4k_compressed_body,
            raiseIf, hb, Bool.false_eq_true, if_false, Env.openPIL, henv, hz,
            hst, pyCatch, Option.some.injEq] at h
          subst h
          exact ⟨rfl, rfl, Or.inl rfl⟩
        | _ =>
          simp only [process_to_4k_compressed, process_to_4k_compressed_body,
            raiseIf, hb, Bool.false_eq_true, if_false, Env.openPIL, henv, hz,
            hst, pyCatch, Option.some.injEq] at h
          subst h
          exact ⟨rfl, rfl, Or.inl rfl⟩

/-- On its primary path (no injected fault, decodable source of nonzero
size) `_process_to_4k_compressed` always encodes JPEG quality 75,
progressive. -/
theorem process_to_4k_compressed_primary (env : Env) (img0 : PILImage)
    (f : OutFile) (hb : env.exnAt .fourKCompressed = false)
    (henv : env.pilImage = some img0) (hw : img0.width ≠ 0)
    (hh : img0.height ≠ 0) (h : process_to_4k_compressed env = some f) :
    f.enc = .jpeg 75 true := by
  have hz : ¬ ((normalizeToRGB img0).width = 0 ∨
      (normalizeToRGB img0).height = 0) := by
    obtain ⟨d1, d2⟩ := normalizeToRGB_dims img0
    rw [d1, d2]
    simp [hw, hh]
  cases hst : fourKCStrategy (normalizeToRGB img0).width
      (normalizeToRGB img0).height with
  | conservativeTwoStep =>
    simp only [process_to_4k_compressed, process_to_4k_compressed_body,
      raiseIf, hb, Bool.false_eq_true, if_false, Env.openPIL, henv, hz,
      hst, pyCatch, Option.some.injEq] at h
    subst h
    rfl
  | _ =>
    simp only [process_to_4k_compressed, process_to_4k_compressed_body,
      raiseIf, hb, Bool.false_eq_true, if_false, Env.openPIL, henv, hz,
      hst, pyCatch, Option.some.injEq] at h
    subst h
    rfl

theorem optimize_image_enc (env : Env) (f : OutFile)
    (h : optimize_image env = some f) : f.enc = .jpeg 85 true := by
  cases hb : env.exnAt .optimizeImage with
  | true =>
    simp [optimize_image, optimize_image_body, raiseIf, pyCatch, hb] at h
  | false =>
    cases henv : env.pilImage with
    | none =>
      simp [optimize_image, optimize_image_body, raiseIf, pyCatch,
        Env.openPIL, hb, henv] at h
    | some img0 =>
      simp only [optimize_image, optimize_image_body, raiseIf, hb,
        Bool.false_eq_true, if_false, Env.openPIL, henv, pyCatch,
        Option.some.injEq] at h
      subst h
      rfl

theorem convert_format_jpeg_enc (env : Env) (fmt : String) (f : OutFile)
    (hfmt : strUpper fmt = "JPEG") (h : convert_format env fmt = some f) :
    f.enc = .jpeg 95 false := by
  cases hb : env.exnAt .convertFormatR with
  | true =>
    simp [convert_format, convert_format_body, raiseIf, pyCatch, hb] at h
  | false =>
    cases henv : env.pilImage with
    | none =>
      simp [convert_format, convert_format_body, raiseIf, pyCatch,
        Env.openPIL, hb, henv] at h
    | some img0 =>
      simp only [convert_format, convert_format_body, raiseIf, hb,
        Bool.false_eq_true, if_false, Env.openPIL, henv, hfmt, if_true,
        pyCatch, Option.some.injEq] at h
      subst h
      rfl

/-! ## Wrapper lemmas and concrete environments -/

theorem pubWrap_some {α : Type} (b : Bool) (v : Option α) (r : α)
    (h : pyCatchR (raiseIf b (.ok v)) (fun _ => .ok none) = .ok (some r)) :
    v = some r := by
  cases b with
  | false => simpa [pyCatchR, raiseIf] using h
  | true => simp [pyCatchR, raiseIf] at h

theorem pubWrap_total {α : Type} (b : Bool) (v : Option α) :
    ∃ r, pyCatchR (raiseIf b (.ok v)) (fun _ => .ok none) = .ok r := by
  cases b with
  | true => exact ⟨none, rfl⟩
  | false => exact ⟨v, rfl⟩

/-- The source's float comparison `max_scale > bound` coincides with the
embedded cross-multiplied branch condition, for positive dimensions. -/
theorem maxScaleQ_gt_iff (w h tw th b : ℕ) (hw : 0 < w) (hh : 0 < h) :
    (b : ℚ) < maxScaleQ w h tw th ↔ (b * w < tw ∨ b * h < th) := by
  unfold maxScaleQ
  rw [lt_max_iff]
  have hwq : (0 : ℚ) < (w : ℚ) := by exact_mod_cast hw
  have hhq : (0 : ℚ) < (h : ℚ) := by exact_mod_cast hh
  rw [lt_div_iff₀ hwq, lt_div_iff₀ hhq]
  constructor
  · rintro (h1 | h2)
    · exact Or.inl (by exact_mod_cast h1)
    · exact Or.inr (by exact_mod_cast h2)
  · rintro (h1 | h2)
    · exact Or.inl (by exact_mod_cast h1)
    · exact Or.inr (by exact_mod_cast h2)

theorem fourKLoopAux_steps_le :
    ∀ fuel sd cw ch, sd ≤ 5 → (fourKLoopAux fuel sd cw ch).2.2 ≤ 6 := by
  intro fuel
  induction fuel with
  | zero =>
    intro sd cw ch hsd
    show sd ≤ 6
    omega
  | succ n ih =>
    intro sd cw ch hsd
    simp only [fourKLoopAux]
    split
    · split
      · show sd + 1 ≤ 6
        omega
      · next hgt =>
        exact ih (sd + 1) _ _ (by omega)
    · show sd ≤ 6
      omega

/-- No injected faults. -/
def noFaults : Routine → Bool := fun _ => false

/-- A fault-free run on a decodable 100×100 RGB source. -/
def envOK : Env := ⟨some ⟨.RGB, 100, 100⟩, some ⟨100, 100⟩, true, noFaults, "img"⟩

/-- A fault-free run on a decodable 5000×3000 RGB source. -/
def envBig : Env :=
  ⟨some ⟨.RGB, 5000, 3000⟩, some ⟨5000, 3000⟩, true, noFaults, "img"⟩

/-- A fault-free run on a decodable 10×10 grayscale+alpha (LA) source. -/
def envLA : Env := ⟨some ⟨.LA, 10, 10⟩, some ⟨10, 10⟩, true, noFaults, "img"⟩

/-- A fault-free run on a decodable 10×10 RGBA source. -/
def envRGBA : Env := ⟨some ⟨.RGBA, 10, 10⟩, some ⟨10, 10⟩, true, noFaults, "img"⟩

/-- A run where only `_optimize_image`'s try body raises. -/
def envOptFault : Env :=
  ⟨some ⟨.RGB, 100, 100⟩, some ⟨100, 100⟩, true,
   fun r => decide (r = .optimizeImage), "img"⟩

/-- A run where every routine's try body raises. -/
def envAllFaults : Env :=
  ⟨some ⟨.RGB, 100, 100⟩, some ⟨100, 100⟩, true, fun _ => true, "img"⟩

/-! ## C1 -/

/-- C1: for every supported scale factor `s ∈ {2,3,4,8}` and every mode in
{standard, smart, max}, a successful `customUpscale` on a decodable `w×h`
source produces an output image of exactly `(w·s)×(h·s)` pixels. -/
theorem C1_custom_upscale_dims (env : Env) (img : PILImage) (s : ℕ)
    (m : String) (f : OutFile)
    (hdec : env.pilImage = some img)
    (_hs : s = 2 ∨ s = 3 ∨ s = 4 ∨ s = 8)
    (_hm : m = "standard" ∨ m = "smart" ∨ m = "max")
    (hf : custom_upscale env s m = some f) :
    f.img.width = img.width * s ∧ f.img.height = img.height * s := by
  obtain ⟨img0, h0, himg, -⟩ := custom_upscale_some env s m f hf
  rw [hdec] at h0
  injection h0 with h0
  subst h0
  rw [himg]
  exact customUpscaled_dims env img s m

/-- C1 witness: `envOK`'s 100×100 source, scale 8, smart mode → 800×800. -/
theorem C1_custom_upscale_dims_witness :
    envOK.pilImage = some ⟨.RGB, 100, 100⟩ ∧
    ((8 : ℕ) = 2 ∨ (8 : ℕ) = 3 ∨ (8 : ℕ) = 4 ∨ (8 : ℕ) = 8) ∧
    ("smart" = "standard" ∨ "smart" = "smart" ∨ "smart" = "max") ∧
    custom_upscale envOK 8 "smart" =
      some ⟨TEMP_DIR, "img_8x_smart.jpg", ⟨.RGB, 800, 800⟩, .jpeg 95 true⟩ ∧
    ((⟨TEMP_DIR, "img_8x_smart.jpg", ⟨.RGB, 800, 800⟩, .jpeg 95 true⟩ :
        OutFile).img.width = 100 * 8 ∧
     (⟨TEMP_DIR, "img_8x_smart.jpg", ⟨.RGB, 800, 800⟩, .jpeg 95 true⟩ :
        OutFile).img.height = 100 * 8) := by
  have hEval : custom_upscale envOK 8 "smart" =
      some ⟨TEMP_DIR, "img_8x_smart.jpg", ⟨.RGB, 800, 800⟩, .jpeg 95 true⟩ := by
    decide
  exact ⟨rfl, by decide, by decide, hEval,
    C1_custom_upscale_dims envOK ⟨.RGB, 100, 100⟩ 8 "smart" _ rfl (by decide)
      (by decide) hEval⟩

/-! ## C2 -/

/-- C2: for every decodable source, the fixed-target operations produce,
when they succeed, an output of exactly the target size: 1920×1080 for
`toHD`, 3840×2160 for `to4K` and `to4KCompressed`. -/
theorem C2_fixed_target_dims (env : Env) :
    (∀ f, enhance_to_hd env = .ok (some f) →
      f.img.width = 1920 ∧ f.img.height = 1080) ∧
    (∀ f, enhance_to_4k env = .ok (some f) →
      f.img.width = 3840 ∧ f.img.height = 2160) ∧
    (∀ f, enhance_to_4k_compressed env = .ok (some f) →
      f.img.width = 3840 ∧ f.img.height = 2160) := by
  refine ⟨fun f h => ?_, fun f h => ?_, fun f h => ?_⟩
  · unfold enhance_to_hd at h
    have hp := pubWrap_some _ _ f h
    obtain ⟨h1, h2, -⟩ := process_to_hd_spec env f hp
    exact ⟨h1, h2⟩
  · unfold enhance_to_4k at h
    have hp := pubWrap_some _ _ f h
    obtain ⟨h1, h2, -⟩ := process_to_4k_spec env f hp
    exact ⟨h1, h2⟩
  · unfold enhance_to_4k_compressed at h
    have hp := pubWrap_some _ _ f h
    obtain ⟨h1, h2, -⟩ := process_to_4k_compressed_spec env f hp
    exact ⟨h1, h2⟩

/-- C2 witness: all three fixed-target operations on `envOK`. -/
theorem C2_fixed_target_dims_witness :
    enhance_to_hd envOK =
      .ok (some ⟨TEMP_DIR, "img_HD.jpg", ⟨.RGB, 1920, 1080⟩, .jpeg 95 false⟩) ∧
    ((⟨TEMP_DIR, "img_HD.jpg", ⟨.RGB, 1920, 1080⟩, .jpeg 95 false⟩ :
        OutFile).img.width = 1920 ∧
     (⟨TEMP_DIR, "img_HD.jpg", ⟨.RGB, 1920, 1080⟩, .jpeg 95 false⟩ :
        OutFile).img.height = 1080) ∧
    enhance_to_4k envOK =
      .ok (some ⟨TEMP_DIR, "img_4K.jpg", ⟨.RGB, 3840, 2160⟩, .jpeg 95 false⟩) ∧
    enhance_to_4k_compressed envOK =
      .ok (some ⟨TEMP_DIR, "img_4K_compressed.jpg", ⟨.RGB, 3840, 2160⟩,
        .jpeg 75 true⟩) := by
  have h1 : enhance_to_hd envOK =
      .ok (some ⟨TEMP_DIR, "img_HD.jpg", ⟨.RGB, 1920, 1080⟩,
        .jpeg 95 false⟩) := by decide
  exact ⟨h1, (C2_fixed_target_dims envOK).1 _ h1, by decide, by decide⟩

/-! ## C3 -/

/-- C3: every public entry point terminates in a `ProcessingResult` — an
`.ok` value (an output path or the `none` failure marker) — and never lets
an exception escape, for any environment and parameters. -/
theorem C3_entry_points_total (env : Env) (fmt m : String) (s : ℕ) :
    (∃ r, enhance_to_hd env = .ok r) ∧
    (∃ r, enhance_to_4k env = .ok r) ∧
    (∃ r, enhance_to_4k_compressed env = .ok r) ∧
    (∃ r, optimize_image_pub env = .ok r) ∧
    (∃ r, convert_format_pub env fmt = .ok r) ∧
    (∃ r, custom_upscale_pub env s m = .ok r) :=
  ⟨pubWrap_total _ _, pubWrap_total _ _, pubWrap_total _ _,
   pubWrap_total _ _, pubWrap_total _ _, pubWrap_total _ _⟩

/-! ## C4 -/

/-- C4 counterexample: with a fault injected only into `_optimize_image`'s
try body, optimize returns the failure marker at once, although the simplest
strategy (a plain resize + mild sharpen, here at the source's own 100×100
size) succeeds in the same environment — no retry happens, contradicting
"returns the failure marker only if that retry also fails" for the optimize
operation. -/
theorem C4_no_retry_counterexample :
    optimize_image envOptFault = none ∧
    simple_resize envOptFault (100, 100) "optimized" =
      some ⟨TEMP_DIR, "img_optimized.jpg", ⟨.RGB, 100, 100⟩,
        .jpeg 95 false⟩ := by
  exact ⟨by decide, by decide⟩

/-- C4 (corrected): on an exception in the try body, `toHD`, `to4K` and
`to4KCompressed` fall back to the simple-resize strategy (so they return
the failure marker only if that retry fails too), while `optimize`,
`convertFormat` and `customUpscale` return the failure marker directly with
no retry. -/
theorem C4_exception_fallbacks (env : Env) (fmt m : String) (s : ℕ) :
    (env.exnAt .hd = true →
      process_to_hd env = simple_resize env HD_SIZE "HD") ∧
    (env.exnAt .fourK = true →
      process_to_4k env = simple_resize env UHD_4K_SIZE "4K") ∧
    (env.exnAt .fourKCompressed = true →
      process_to_4k_compressed env =
        simple_resize env UHD_4K_SIZE "4K_compressed") ∧
    (env.exnAt .optimizeImage = true → optimize_image env = none) ∧
    (env.exnAt .convertFormatR = true → convert_format env fmt = none) ∧
    (env.exnAt .customUp = true → custom_upscale env s m = none) := by
  refine ⟨fun hb => ?_, fun hb => ?_, fun hb => ?_, fun hb => ?_,
    fun hb => ?_, fun hb => ?_⟩
  · unfold process_to_hd process_to_hd_body raiseIf
    rw [hb]
    rfl
  · unfold process_to_4k process_to_4k_body raiseIf
    rw [hb]
    rfl
  · unfold process_to_4k_compressed process_to_4k_compressed_body raiseIf
    rw [hb]
    rfl
  · unfold optimize_image optimize_image_body raiseIf
    rw [hb]
    rfl
  · unfold convert_format convert_format_body raiseIf
    rw [hb]
    rfl
  · unfold custom_upscale custom_upscale_body raiseIf
    rw [hb]
    rfl

/-- C4 witness: with every try body raising, the three resize operations
equal their simple-resize retry, and optimize returns the failure marker. -/
theorem C4_exception_fallbacks_witness :
    envAllFaults.exnAt .hd = true ∧
    process_to_hd envAllFaults = simple_resize envAllFaults HD_SIZE "HD" ∧
    envAllFaults.exnAt .optimizeImage = true ∧
    optimize_image envAllFaults = none :=
  ⟨rfl, (C4_exception_fallbacks envAllFaults "PNG" "standard" 2).1 rfl, rfl,
   (C4_exception_fallbacks envAllFaults "PNG" "standard" 2).2.2.2.1 rfl⟩

/-! ## C5 -/

/-- C5 counterexample: a 100×100 source is smaller than the HD target and
its maxScale (= 19.2) exceeds 8, yet `_process_to_hd` has no scale-factor
branch at all: it selects the advanced single-step path, not the
simple-resample fallback path the claim requires. -/
theorem C5_hd_no_scale_branch_counterexample :
    ((100 : ℕ) < 1920 ∧ (100 : ℕ) < 1080) ∧
    (8 : ℚ) < maxScaleQ 100 100 1920 1080 ∧
    hdStrategy 100 100 = .advancedSingle ∧
    decide (hdStrategy 100 100 = Strategy.simpleFallback) = false := by
  refine ⟨by decide, ?_, by decide, by decide⟩
  exact (maxScaleQ_gt_iff 100 100 1920 1080 8 (by norm_num)
    (by norm_num)).mpr (by norm_num)

/-- C5 (corrected): for `to4K`, a source smaller than the target with
maxScale > 8 selects the simple-resample fallback directly and skips the
progressive loop; `toHD` has no maxScale branch — every source not meeting
the target in both dimensions takes its single-step advanced path (never a
progressive loop, and the fallback only on decode failure or exception). -/
theorem C5_extreme_scale_policy (w h : ℕ) :
    (0 < w → 0 < h → w < 3840 → h < 2160 →
      (8 : ℚ) < maxScaleQ w h 3840 2160 →
      fourKStrategy w h = .simpleFallback) ∧
    (w < 1920 ∨ h < 1080 → hdStrategy w h = .advancedSingle) := by
  constructor
  · intro hw hh hW hH hms
    have hcross := (maxScaleQ_gt_iff w h 3840 2160 8 hw hh).mp hms
    unfold fourKStrategy
    rw [if_neg (by omega), if_pos hcross]
  · intro hcond
    unfold hdStrategy
    rw [if_neg (by omega)]

/-- C5 witness: 100×100 for the 4K branch, 50×50 for the HD branch. -/
theorem C5_extreme_scale_policy_witness :
    ((0 : ℕ) < 100 ∧ (100 : ℕ) < 3840 ∧ (100 : ℕ) < 2160 ∧
      (8 : ℚ) < maxScaleQ 100 100 3840 2160 ∧
      fourKStrategy 100 100 = .simpleFallback) ∧
    (((50 : ℕ) < 1920 ∨ (50 : ℕ) < 1080) ∧
      hdStrategy 50 50 = .advancedSingle) := by
  have hms : (8 : ℚ) < maxScaleQ 100 100 3840 2160 :=
    (maxScaleQ_gt_iff 100 100 3840 2160 8 (by norm_num)
      (by norm_num)).mpr (by norm_num)
  exact ⟨⟨by decide, by decide, by decide, hms,
      (C5_extreme_scale_policy 100 100).1 (by decide) (by decide) (by decide)
        (by decide) hms⟩,
    ⟨by decide, (C5_extreme_scale_policy 50 50).2 (by decide)⟩⟩

/-! ## C6 -/

/-- C6 counterexample: a 5000×3000 source meets the 4K target in both
dimensions, yet `_process_to_4k_compressed` selects the plain direct-resize
branch — the compressed pipeline has no crop-resize path at all. -/
theorem C6_compressed_no_crop_counterexample :
    ((3840 : ℕ) ≤ 5000 ∧ (2160 : ℕ) ≤ 3000) ∧
    fourKCStrategy 5000 3000 = .directResize ∧
    decide (fourKCStrategy 5000 3000 = Strategy.smartCrop) = false := by
  exact ⟨by decide, by decide, by decide⟩

/-- C6 (corrected): when the source meets the target in both dimensions,
`toHD` and `to4K` select the aspect-preserving crop-resize path, but
`to4KCompressed` always direct-resizes (its only branch is the intermediate
two-step stretch for maxScale > 10, impossible for such sources) and never
crops. -/
theorem C6_downscale_selector (w h : ℕ) :
    (1920 ≤ w → 1080 ≤ h → hdStrategy w h = .smartCrop) ∧
    (3840 ≤ w → 2160 ≤ h → fourKStrategy w h = .smartCrop) ∧
    (3840 ≤ w → 2160 ≤ h → fourKCStrategy w h = .directResize) := by
  refine ⟨fun h1 h2 => ?_, fun h1 h2 => ?_, fun h1 h2 => ?_⟩
  · unfold hdStrategy
    rw [if_pos ⟨h1, h2⟩]
  · unfold fourKStrategy
    rw [if_pos ⟨h1, h2⟩]
  · unfold fourKCStrategy
    rw [if_neg (by omega)]

/-- C6 witness: 5000×3000 in all three selectors. -/
theorem C6_downscale_selector_witness :
    ((1920 : ℕ) ≤ 5000 ∧ (1080 : ℕ) ≤ 3000 ∧
      hdStrategy 5000 3000 = .smartCrop) ∧
    ((3840 : ℕ) ≤ 5000 ∧ (2160 : ℕ) ≤ 3000 ∧
      fourKStrategy 5000 3000 = .smartCrop) ∧
    fourKCStrategy 5000 3000 = .directResize :=
  ⟨⟨by decide, by decide,
      (C6_downscale_selector 5000 3000).1 (by decide) (by decide)⟩,
   ⟨by decide, by decide,
      (C6_downscale_selector 5000 3000).2.1 (by decide) (by decide)⟩,
   (C6_downscale_selector 5000 3000).2.2 (by decide) (by decide)⟩

/-! ## C7 -/

/-- C7 counterexample: a 960×480 cv source (maxScale 4.5; every float step
exact) takes the progressive path; the width reaches 3840 in two doublings
while the height stalls at 1920, the per-axis scale factor becomes 1, the
dimensions stop changing, and — because the cap is checked only after the
body — six loop bodies execute, exceeding the claimed five. -/
theorem C7_six_iterations_counterexample :
    fourKStrategy 960 480 = .progressiveMulti ∧
    fourKLoopSteps 960 480 = 6 := by
  exact ⟨by decide, by decide⟩

/-- C7 (corrected): the pixel-pipeline progressive loop of `to4K` executes
at most 6 bodies for every input (the counter check `step > 5` runs after
the body, so a sixth body can execute when dimensions stall); the
buffer-pipeline loop of smart custom upscale runs `⌊log2 maxScale⌋ + 1`
iterations with no cap, which is at most 4 for the supported scale factors
{2,3,4,8}. -/
theorem C7_iteration_bounds (w h s : ℕ) :
    fourKLoopSteps w h ≤ 6 ∧
    (0 < w → 0 < h → (s = 2 ∨ s = 3 ∨ s = 4 ∨ s = 8) →
      smartUpIterCount w h (w * s) (h * s) ≤ 4) := by
  constructor
  · exact fourKLoopAux_steps_le 6 0 w h (by omega)
  · intro hw hh hs
    have hdw : w * s / w = s := Nat.mul_div_cancel_left s hw
    have hdh : h * s / h = s := Nat.mul_div_cancel_left s hh
    unfold smartUpIterCount
    rw [hdw, hdh, max_self]
    rcases hs with rfl | rfl | rfl | rfl
    · rw [if_neg (by omega)]
      omega
    · rw [if_neg (by omega)]
      omega
    · rw [if_neg (by omega)]
      omega
    · rw [if_pos (by omega)]
      decide

/-- C7 witness: the 4K loop bound at 100×100, the smart-upscale count at
scale factor 8. -/
theorem C7_iteration_bounds_witness :
    fourKLoopSteps 100 100 ≤ 6 ∧
    (0 : ℕ) < 100 ∧
    ((8 : ℕ) = 2 ∨ (8 : ℕ) = 3 ∨ (8 : ℕ) = 4 ∨ (8 : ℕ) = 8) ∧
    smartUpIterCount 100 100 (100 * 8) (100 * 8) ≤ 4 :=
  ⟨(C7_iteration_bounds 100 100 8).1, by decide, by decide,
   (C7_iteration_bounds 100 100 8).2 (by decide) (by decide) (by decide)⟩

/-! ## C8 -/

/-- C8 counterexample: an LA (grayscale+alpha) source — whose mode is not
RGBA — is normalized to RGBA by `_custom_upscale` and saved losslessly as
PNG, so "encodes losslessly exactly when the source input is RGBA" fails. -/
theorem C8_lossless_mode_counterexample :
    envLA.pilImage = some ⟨.LA, 10, 10⟩ ∧
    decide (PILMode.LA = PILMode.RGBA) = false ∧
    custom_upscale envLA 2 "standard" =
      some ⟨TEMP_DIR, "img_2x_standard.png", ⟨.RGBA, 20, 20⟩, .png⟩ := by
  exact ⟨rfl, by decide, by decide⟩

/-- C8 (corrected): a successful custom upscale encodes PNG exactly when the
source mode is RGBA, LA or P (all normalized to RGBA) and JPEG quality 95
(progressive) otherwise; HD, 4K and convert-to-JPEG successes are JPEG
quality 95, optimize is 85, and 4K-compressed is 75 on its primary path —
but a 4K-compressed success obtained through the exception fallback (simple
resize) is encoded at quality 95, not 75. -/
theorem C8_output_policy (env : Env) (s : ℕ) (m fmt : String) :
    (∀ img0 f, env.pilImage = some img0 → custom_upscale env s m = some f →
      (((img0.mode = .RGBA ∨ img0.mode = .LA ∨ img0.mode = .P) →
         f.enc = .png) ∧
       ((img0.mode = .RGB ∨ img0.mode = .L ∨ img0.mode = .CMYK) →
         f.enc = .jpeg 95 true))) ∧
    (∀ f, process_to_hd env = some f → f.enc = .jpeg 95 false) ∧
    (∀ f, process_to_4k env = some f → f.enc = .jpeg 95 false) ∧
    (∀ f, optimize_image env = some f → f.enc = .jpeg 85 true) ∧
    (strUpper fmt = "JPEG" → ∀ f, convert_format env fmt = some f →
      f.enc = .jpeg 95 false) ∧
    (∀ img0 f, env.exnAt .fourKCompressed = false →
      env.pilImage = some img0 → 0 < img0.width → 0 < img0.height →
      process_to_4k_compressed env = some f → f.enc = .jpeg 75 true) ∧
    (∀ f, process_to_4k_compressed env = some f →
      f.enc = .jpeg 75 true ∨ f.enc = .jpeg 95 false) := by
  refine ⟨fun img0 f h0 hf => ?_,
    fun f hf => (process_to_hd_spec env f hf).2.2,
    fun f hf => (process_to_4k_spec env f hf).2.2,
    fun f hf => optimize_image_enc env f hf,
    fun hfmt f hf => convert_format_jpeg_enc env fmt f hfmt hf,
    fun img0 f hb h0 hw hh hf =>
      process_to_4k_compressed_primary env img0 f hb h0 (by omega) (by omega) hf,
    fun f hf => (process_to_4k_compressed_spec env f hf).2.2⟩
  obtain ⟨img1, h1, -, henc⟩ := custom_upscale_some env s m f hf
  rw [h0] at h1
  injection h1 with h1
  subst h1
  constructor
  · intro hmode
    have hR : (customUpscaled env img0 s m).mode = .RGBA := by
      rw [customUpscaled_mode, if_pos hmode]
    rw [henc, if_pos hR]
  · intro hmode
    have hR : (customUpscaled env img0 s m).mode = .RGB := by
      rcases hmode with h | h | h <;> rw [customUpscaled_mode, h] <;> rfl
    have hne : (customUpscaled env img0 s m).mode = PILMode.RGBA → False := by
      rw [hR]
      intro hcon
      cases hcon
    rw [henc, if_neg hne]

/-- C8 witness: the RGBA → PNG direction on `envRGBA`, and the HD and
primary 4K-compressed qualities on `envOK`. -/
theorem C8_output_policy_witness :
    envRGBA.pilImage = some ⟨.RGBA, 10, 10⟩ ∧
    custom_upscale envRGBA 2 "standard" =
      some ⟨TEMP_DIR, "img_2x_standard.png", ⟨.RGBA, 20, 20⟩, .png⟩ ∧
    (⟨TEMP_DIR, "img_2x_standard.png", ⟨.RGBA, 20, 20⟩, .png⟩ :
      OutFile).enc = .png ∧
    process_to_hd envOK =
      some ⟨TEMP_DIR, "img_HD.jpg", ⟨.RGB, 1920, 1080⟩, .jpeg 95 false⟩ ∧
    (⟨TEMP_DIR, "img_HD.jpg", ⟨.RGB, 1920, 1080⟩, .jpeg 95 false⟩ :
      OutFile).enc = .jpeg 95 false ∧
    envOK.exnAt .fourKCompressed = false ∧
    process_to_4k_compressed envOK =
      some ⟨TEMP_DIR, "img_4K_compressed.jpg", ⟨.RGB, 3840, 2160⟩,
        .jpeg 75 true⟩ ∧
    (⟨TEMP_DIR, "img_4K_compressed.jpg", ⟨.RGB, 3840, 2160⟩,
      .jpeg 75 true⟩ : OutFile).enc = .jpeg 75 true := by
  have hc : custom_upscale envRGBA 2 "standard" =
      some ⟨TEMP_DIR, "img_2x_standard.png", ⟨.RGBA, 20, 20⟩, .png⟩ := by
    decide
  have hh : process_to_hd envOK =
      some ⟨TEMP_DIR, "img_HD.jpg", ⟨.RGB, 1920, 1080⟩, .jpeg 95 false⟩ := by
    decide
  have hk : process_to_4k_compressed envOK =
      some ⟨TEMP_DIR, "img_4K_compressed.jpg", ⟨.RGB, 3840, 2160⟩,
        .jpeg 75 true⟩ := by
    decide
  exact ⟨rfl, hc,
    ((C8_output_policy envRGBA 2 "standard" "X").1 _ _ rfl hc).1 (Or.inl rfl),
    hh, (C8_output_policy envOK 2 "standard" "X").2.1 _ hh, rfl, hk,
    (C8_output_policy envOK 2 "standard" "X").2.2.2.2.2.1 _ _ rfl rfl
      (by decide) (by decide) hk⟩

/-! ## C9 -/

/-- C9: whenever smart resize crops (the aspect quotients differ by at least
0.01), the cropped axis's offsets from its two opposite edges differ by at
most one pixel, and a successful smart resize always has exactly the target
dimensions. -/
theorem C9_center_crop (ow oh tw th lo hi : ℕ) (env : Env)
    (target : ℕ × ℕ) (sfx : String) (f : OutFile) :
    (smartCropOffsets ow oh tw th = some (lo, hi) →
      lo ≤ hi ∧ hi ≤ lo + 1) ∧
    (smart_resize env target sfx = some f →
      f.img.width = target.1 ∧ f.img.height = target.2) := by
  constructor
  · intro hc
    unfold smartCropOffsets at hc
    split at hc
    · simp at hc
    · split at hc
      · simp only [Option.some.injEq, Prod.mk.injEq] at hc
        obtain ⟨h1, h2⟩ := hc
        rw [← h1, ← h2]
        generalize oh * tw / th = nw
        omega
      · simp only [Option.some.injEq, Prod.mk.injEq] at hc
        obtain ⟨h1, h2⟩ := hc
        rw [← h1, ← h2]
        generalize ow * th / tw = nh
        omega
  · exact fun h => smart_resize_dims env target sfx f h

/-- C9 witness: a 5000×3000 source against the 4K target crops the vertical
axis with offsets (94, 94), and the resize output is exactly 3840×2160. -/
theorem C9_center_crop_witness :
    smartCropOffsets 5000 3000 3840 2160 = some (94, 94) ∧
    ((94 : ℕ) ≤ 94 ∧ (94 : ℕ) ≤ 94 + 1) ∧
    smart_resize envBig (3840, 2160) "4K" =
      some ⟨TEMP_DIR, "img_4K.jpg", ⟨.RGB, 3840, 2160⟩, .jpeg 95 false⟩ ∧
    ((⟨TEMP_DIR, "img_4K.jpg", ⟨.RGB, 3840, 2160⟩, .jpeg 95 false⟩ :
        OutFile).img.width = 3840 ∧
     (⟨TEMP_DIR, "img_4K.jpg", ⟨.RGB, 3840, 2160⟩, .jpeg 95 false⟩ :
        OutFile).img.height = 2160) := by
  have h1 : smartCropOffsets 5000 3000 3840 2160 = some (94, 94) := by decide
  have h2 : smart_resize envBig (3840, 2160) "4K" =
      some ⟨TEMP_DIR, "img_4K.jpg", ⟨.RGB, 3840, 2160⟩, .jpeg 95 false⟩ := by
    decide
  exact ⟨h1,
    (C9_center_crop 5000 3000 3840 2160 94 94 envBig (3840, 2160) "4K"
      ⟨TEMP_DIR, "img_4K.jpg", ⟨.RGB, 3840, 2160⟩, .jpeg 95 false⟩).1 h1,
    h2,
    (C9_center_crop 5000 3000 3840 2160 94 94 envBig (3840, 2160) "4K"
      ⟨TEMP_DIR, "img_4K.jpg", ⟨.RGB, 3840, 2160⟩, .jpeg 95 false⟩).2 h2⟩

/-! ## C10 -/

/-- C10: `is_image_file` accepts the extension `.gif` (alongside .jpg,
.jpeg, .png, .webp, .bmp, .tiff), even though GIF is not among the
pipeline's supported encodings. -/
theorem C10_gif_passes_filter (name : String) :
    (get_file_extension name = ".gif" → is_image_file name = true) ∧
    decide (("GIF" : String) ∈ SUPPORTED_FORMATS) = false := by
  constructor
  · intro h
    unfold is_image_file
    rw [h]
    decide
  · decide

/-- C10 witness: the file name `photo.gif`. -/
theorem C10_gif_passes_filter_witness :
    get_file_extension "photo.gif" = ".gif" ∧
    is_image_file "photo.gif" = true ∧
    decide (("GIF" : String) ∈ SUPPORTED_FORMATS) = false := by
  have h : get_file_extension "photo.gif" = ".gif" := by decide
  exact ⟨h, (C10_gif_passes_filter "photo.gif").1 h,
    (C10_gif_passes_filter "photo.gif").2⟩

end TeleImageBot
